import Mathlib

/-!
Verification development for a chat/RAG backend.

The definitions below are a shallow embedding of the backend source:
`crud.py` (store accessor), `schemas.py` (request validation),
`api/chat.py` (chat-turn orchestration), `api/documents.py`
(document-upload orchestration) and `services/lightrag.py` (RAG client).

Database rows become Lean structures, the SQLAlchemy session becomes an
explicit state value threaded through each operation, `ORDER BY` becomes
`List.insertionSort`, and the remote RAG call becomes an `Except`
parameter injected into the orchestrator (the network outcome is an
input of the model).  Timestamps and identifiers are `Nat`.
-/

set_option maxRecDepth 10000

namespace RagBackend

/-- `models.MessageSender`: enumerated sender of a message. -/
inductive MessageSender where
  | user
  | ai
deriving DecidableEq, Repr

/-- A row of the `messages` table (`models.Message`).  `sources` is kept
as an opaque optional payload since no code path inspects it. -/
structure Message where
  id : Nat
  conversation_id : Nat
  sender : MessageSender
  content : String
  sources : Option (List (List (String × String)))
  timestamp : Nat
deriving DecidableEq, Repr

/-- A row of the `conversations` table (`models.Conversation`). -/
structure Conversation where
  id : Nat
  title : Option String
  user_id : Option String
deriving DecidableEq, Repr

/-- The relational store: the two tables. -/
structure DB where
  convs : List Conversation
  msgs : List Message
deriving DecidableEq, Repr

/-- One entry of the history sent to the RAG service: a dict with
`role` and `content` keys. -/
structure HistEntry where
  role : String
  content : String
deriving DecidableEq, Repr

/-- The `ORDER BY timestamp DESC` ordering used by the history query. -/
def tsDesc (a b : Message) : Prop := b.timestamp ≤ a.timestamp

/-- The `ORDER BY timestamp` (ascending) ordering. -/
def tsAsc (a b : Message) : Prop := a.timestamp ≤ b.timestamp

instance : DecidableRel tsDesc := fun a b => Nat.decLe b.timestamp a.timestamp

instance : DecidableRel tsAsc := fun a b => Nat.decLe a.timestamp b.timestamp

instance : IsTotal Message tsDesc := ⟨fun a b => Nat.le_total b.timestamp a.timestamp⟩

instance : IsTotal Message tsAsc := ⟨fun a b => Nat.le_total a.timestamp b.timestamp⟩

instance : IsTrans Message tsDesc := ⟨fun _ _ _ h1 h2 => Nat.le_trans h2 h1⟩

instance : IsTrans Message tsAsc := ⟨fun _ _ _ h1 h2 => Nat.le_trans h1 h2⟩

/-- Python slicing `s[:n]` on a string, at the code-point level. -/
def pySlice (s : String) (n : Nat) : String := ⟨s.data.take n⟩

/-- Python `s.strip()`: remove whitespace from both ends. -/
def pyStrip (s : String) : String :=
  ⟨(((s.data).dropWhile Char.isWhitespace).reverse.dropWhile Char.isWhitespace).reverse⟩

/-- Python `len(s)`: number of code points. -/
def pyLen (s : String) : Nat := s.data.length

/-- `crud.get_conversation`: look a conversation up by id. -/
def get_conversation (db : DB) (conversation_id : Nat) : Option Conversation :=
  db.convs.find? (fun c => c.id == conversation_id)

/-- `crud.create_conversation`: add a fresh conversation row.  The
generated id is an explicit parameter of the model. -/
def create_conversation (db : DB) (newId : Nat) (title : Option String)
    (user_id : Option String) : DB :=
  { db with convs := db.convs ++ [⟨newId, title, user_id⟩] }

/-- `crud.update_conversation_title`: set the title of the conversation
with the given id, if present. -/
def update_conversation_title (db : DB) (conversation_id : Nat) (title : String) : DB :=
  { db with convs := db.convs.map (fun c =>
      if c.id == conversation_id then { c with title := some title } else c) }

/-- `crud.create_message` (via `create_user_message` / `create_ai_message`):
append a message row; id and server-assigned timestamp are explicit
parameters of the model. -/
def create_message (db : DB) (m : Message) : DB :=
  { db with msgs := db.msgs ++ [m] }

/-- The `WHERE Message.conversation_id == conversation_id` filter. -/
def convMsgs (msgs : List Message) (conversation_id : Nat) : List Message :=
  msgs.filter (fun m => m.conversation_id == conversation_id)

/-- `crud.get_conversation_message_count`: `COUNT` of the messages of a
conversation. -/
def get_conversation_message_count (db : DB) (conversation_id : Nat) : Nat :=
  (convMsgs db.msgs conversation_id).length

/-- The bounded window fetched by `crud.get_conversation_history_for_lightrag`:
`WHERE conversation_id = cid ORDER BY timestamp DESC LIMIT max_messages`. -/
def lightragWindow (msgs : List Message) (conversation_id max_messages : Nat) :
    List Message :=
  ((convMsgs msgs conversation_id).insertionSort tsDesc).take max_messages

/-- The role mapping of `get_conversation_history_for_lightrag`:
`role = "user" if sender == USER else "assistant"`. -/
def toHistEntry (m : Message) : HistEntry :=
  ⟨if m.sender == MessageSender.user then "user" else "assistant", m.content⟩

/-- `crud.get_conversation_history_for_lightrag`: fetch the most recent
`max_messages` messages by descending timestamp, reverse to
chronological order, and map each to a role-tagged record. -/
def get_conversation_history_for_lightrag (db : DB) (conversation_id : Nat)
    (max_messages : Nat := 10) : List HistEntry :=
  ((lightragWindow db.msgs conversation_id max_messages).reverse).map toHistEntry

/-- `crud.generate_conversation_title`: take the chronologically first
`sender=user` message of the conversation; the title is the first 50
characters of its content, stripped, with an ellipsis appended when the
content is longer than 50 characters. -/
def generate_conversation_title (db : DB) (conversation_id : Nat) : Option String :=
  match ((db.msgs.filter (fun m =>
      m.conversation_id == conversation_id &&
        m.sender == MessageSender.user)).insertionSort tsAsc).head? with
  | some first_message =>
      some (pyStrip (pySlice first_message.content 50) ++
        (if pyLen first_message.content > 50 then "..." else ""))
  | none => none

/-! ### `schemas.py`: request validation -/

/-- A parsed `schemas.ChatRequest`.  `message` is the value returned by
the pydantic validator, i.e. already stripped. -/
structure ChatRequest where
  conversation_id : Option Nat
  message : String
deriving DecidableEq, Repr

/-- Pydantic validation of `schemas.ChatRequest`: the `message` field has
`min_length=1`, `max_length=10000`, and the field validator rejects a
whitespace-only value and returns the stripped text. -/
def parseChatRequest (conversation_id : Option Nat) (message : String) :
    Option ChatRequest :=
  if pyLen message < 1 then none
  else if pyLen message > 10000 then none
  else if pyStrip message = "" then none
  else some ⟨conversation_id, pyStrip message⟩

/-! ### `api/chat.py`: the chat endpoint -/

/-- Outcome of the chat endpoint, by HTTP class. -/
inductive ChatOutcome where
  | success (conversation_id : Nat) (ai_message : String)
      (sources : Option (List (List (String × String))))
      (user_message_id ai_message_id : Nat)
  | invalidInput
  | notFound
  | serviceUnavailable
  | internalError
deriving DecidableEq, Repr

/-- Result of one run of the chat endpoint: the store afterwards, the
outcome, and — when the RAG call was reached — the
`conversation_history` argument passed to `lightrag_service.query`
(`none` inside means Python `None`). -/
structure ChatResult where
  db : DB
  outcome : ChatOutcome
  ragSent : Option (Option (List HistEntry))
deriving DecidableEq, Repr

/-- Python truthiness test `not conversation.title`: true for a missing
title and for an empty-string title. -/
def titleFalsy : Option String → Bool
  | none => true
  | some s => s == ""

/-- `api/chat.py chat`: the chat-turn orchestration.  The generated
conversation id, the two message ids, the two server-assigned
timestamps, the outcome of the remote RAG call and a fault flag for the
auto-title step (its store operations can raise) are explicit inputs of
the model. -/
def chat (db : DB) (req : ChatRequest)
    (newConvId userMsgId userMsgTs aiMsgId aiMsgTs : Nat)
    (rag : Except Unit String) (titleStepFails : Bool) : ChatResult :=
  -- Step 1: conversation creation or validation
  let step1 : Except ChatResult (DB × Conversation) :=
    match req.conversation_id with
    | none =>
        (Except.ok (create_conversation db newConvId none (some "default_user"),
          ⟨newConvId, none, some "default_user"⟩))
    | some cid =>
        match get_conversation db cid with
        | some conversation => Except.ok (db, conversation)
        | none => Except.error ⟨db, ChatOutcome.notFound, none⟩
  match step1 with
  | .error r => r
  | .ok (db1, conversation) =>
    -- Step 2: save the user message
    let user_message : Message :=
      ⟨userMsgId, conversation.id, MessageSender.user, req.message, none, userMsgTs⟩
    let db2 := create_message db1 user_message
    -- Step 3: history for context (last 10 messages)
    let conversation_history := get_conversation_history_for_lightrag db2 conversation.id 10
    -- Step 4: the forwarded history drops the just-added message; this is
    -- the payload passed to the single RAG-query call site
    let sent : Option (List HistEntry) :=
      if conversation_history.isEmpty then none else some conversation_history.dropLast
    let rest : DB × ChatOutcome :=
      match rag with
      | .error _ => (db2, ChatOutcome.serviceUnavailable)
      | .ok ai_response_text =>
        -- Step 5: sources placeholder
        let sources : Option (List (List (String × String))) := none
        -- Step 6: save the AI message
        let ai_message : Message :=
          ⟨aiMsgId, conversation.id, MessageSender.ai, ai_response_text, none, aiMsgTs⟩
        let db3 := create_message db2 ai_message
        -- Step 7: auto-generate the title when the loaded title is falsy
        if titleFalsy conversation.title then
          if titleStepFails then (db3, ChatOutcome.internalError)
          else
            let db4 := match generate_conversation_title db3 conversation.id with
              | some generated_title =>
                  if generated_title == "" then db3
                  else update_conversation_title db3 conversation.id generated_title
              | none => db3
            (db4, ChatOutcome.success conversation.id ai_response_text sources userMsgId aiMsgId)
        else
          (db3, ChatOutcome.success conversation.id ai_response_text sources userMsgId aiMsgId)
    ⟨rest.1, rest.2, some sent⟩

/-- The chat endpoint including the request-validation boundary: FastAPI
rejects an invalid body before the handler (and hence any store access)
runs. -/
def chat_endpoint (db : DB) (conversation_id : Option Nat) (message : String)
    (newConvId userMsgId userMsgTs aiMsgId aiMsgTs : Nat)
    (rag : Except Unit String) (titleStepFails : Bool) : ChatResult :=
  match parseChatRequest conversation_id message with
  | none => ⟨db, ChatOutcome.invalidInput, none⟩
  | some req => chat db req newConvId userMsgId userMsgTs aiMsgId aiMsgTs rag titleStepFails

/-! ### `api/documents.py`: document ingestion -/

/-- `ALLOWED_EXTENSIONS`. -/
def ALLOWED_EXTENSIONS : List String :=
  [".pdf", ".txt", ".doc", ".docx", ".md", ".rtf",
   ".csv", ".xlsx", ".xls", ".ppt", ".pptx"]

/-- `ALLOWED_MIME_TYPES`. -/
def ALLOWED_MIME_TYPES : List String :=
  ["application/pdf",
   "text/plain",
   "text/markdown",
   "text/csv",
   "application/msword",
   "application/vnd.openxmlformats-officedocument.wordprocessingml.document",
   "application/vnd.ms-excel",
   "application/vnd.openxmlformats-officedocument.spreadsheetml.sheet",
   "application/vnd.ms-powerpoint",
   "application/vnd.openxmlformats-officedocument.presentationml.presentation"]

/-- `settings.max_file_size` (50 MB). -/
def max_file_size : Nat := 50 * 1024 * 1024

/-- Python `s.lower()`. -/
def pyLower (s : String) : String := ⟨s.data.map Char.toLower⟩

/-- Index of the last `.` strictly inside the name (`pathlib` treats a
leading or trailing dot as not starting an extension). -/
def lastInnerDot (cs : List Char) : Option Nat :=
  ((List.range cs.length).filter
    (fun i => cs.getD i ' ' == '.' && decide (0 < i) && decide (i + 1 < cs.length))).getLast?

/-- `pathlib.Path(name).suffix`. -/
def pathSuffix (name : String) : String :=
  match lastInnerDot name.data with
  | some i => ⟨name.data.drop i⟩
  | none => ""

/-- `pathlib.Path(name).stem`. -/
def pathStem (name : String) : String :=
  match lastInnerDot name.data with
  | some i => ⟨name.data.take i⟩
  | none => name

/-- The metadata of an `UploadFile` that `validate_file` inspects:
client-declared filename, media type, and size (each may be absent). -/
structure UploadFile where
  filename : Option String
  content_type : Option String
  size : Option Nat
deriving DecidableEq, Repr

/-- The three `bad_request_exception` sites of `validate_file`. -/
inductive FileError where
  | fileTooLarge
  | extensionNotAllowed
  | mimeNotAllowed
deriving DecidableEq, Repr

/-- `api/documents.py validate_file`: size check (guarded by the
truthiness of `file.size`), then extension check (only when a filename
is present and truthy), then MIME check (only when a media type is
present and truthy). -/
def validate_file (file : UploadFile) : Except FileError Unit :=
  if (match file.size with
      | some s => decide (0 < s) && decide (max_file_size < s)
      | none => false) then
    Except.error FileError.fileTooLarge
  else if (match file.filename with
      | some fn => fn != "" && !(ALLOWED_EXTENSIONS.contains (pyLower (pathSuffix fn)))
      | none => false) then
    Except.error FileError.extensionNotAllowed
  else if (match file.content_type with
      | some ct => ct != "" && !(ALLOWED_MIME_TYPES.contains ct)
      | none => false) then
    Except.error FileError.mimeNotAllowed
  else
    Except.ok ()

/-- Outcome of the upload endpoint, by HTTP class. -/
inductive UploadOutcome where
  | success (filename : String) (file_size : Nat)
  | invalidInput
  | serviceUnavailable
  | internalError
deriving DecidableEq, Repr

/-- Result of one run of the upload endpoint: the local document store
afterwards, the outcome, whether the remote RAG call was made, and the
name of the locally written file if a write happened. -/
structure UploadResult where
  fs : List String
  outcome : UploadOutcome
  remoteCalled : Bool
  localWrote : Option String
deriving DecidableEq, Repr

/-- `api/documents.py upload_document`: validate, derive the unique
filename (`stem_uniqueid` + original extension, falling back to
`unknown_file` for a missing name), save locally, forward to the RAG
service, and delete the local file when the forward fails.  The random
suffix, the byte count of the read content, a fault flag for the local
save and the remote outcome are explicit inputs of the model.  The
store is the list of existing local filenames. -/
def upload_document (fs : List String) (file : UploadFile) (unique_id : String)
    (file_content_size : Nat) (saveOk : Bool) (rag : Except Unit Unit) : UploadResult :=
  match validate_file file with
  | .error _ => ⟨fs, UploadOutcome.invalidInput, false, none⟩
  | .ok _ =>
    -- `original_filename = file.filename or "unknown_file"`
    let original_filename :=
      match file.filename with
      | some fn => if fn == "" then "unknown_file" else fn
      | none => "unknown_file"
    let unique_filename :=
      pathStem original_filename ++ "_" ++ unique_id ++ pathSuffix original_filename
    if saveOk then
      let fs1 := if fs.contains unique_filename then fs else fs ++ [unique_filename]
      match rag with
      | .ok _ =>
          ⟨fs1, UploadOutcome.success unique_filename file_content_size, true,
            some unique_filename⟩
      | .error _ =>
          -- `if local_save_path.exists(): local_save_path.unlink()`
          let fs2 := if fs1.contains unique_filename then
              fs1.filter (fun f => f != unique_filename)
            else fs1
          ⟨fs2, UploadOutcome.serviceUnavailable, true, some unique_filename⟩
    else
      ⟨fs, UploadOutcome.internalError, false, none⟩

/-! ### `services/lightrag.py`: the RAG client -/

/-- Python `s.rstrip` with a single character. -/
def rstripChar (s : String) (c : Char) : String :=
  ⟨(s.data.reverse.dropWhile (fun x => x == c)).reverse⟩

/-- `LightRAGService` configuration state set in `__init__`:
`base_url`, `api_key`, and the shared default timeout of 300 seconds. -/
structure LightRAGService where
  base_url : String
  api_key : Option String
  timeout : Nat
deriving DecidableEq, Repr

/-- `LightRAGService.__init__`. -/
def LightRAGService.make (lightrag_server_url : String) (lightrag_api_key : Option String) :
    LightRAGService :=
  ⟨rstripChar lightrag_server_url '/', lightrag_api_key, 300⟩

/-- The outbound HTTP call a client method issues: target URL and the
timeout handed to the `AsyncClient`. -/
structure OutboundCall where
  url : String
  timeout : Nat
deriving DecidableEq, Repr

/-- The call `LightRAGService.query` issues. -/
def LightRAGService.query_call (s : LightRAGService) : OutboundCall :=
  ⟨s.base_url ++ "/query", s.timeout⟩

/-- The call `LightRAGService.upload_document` issues. -/
def LightRAGService.upload_document_call (s : LightRAGService) : OutboundCall :=
  ⟨s.base_url ++ "/documents/upload", s.timeout⟩

/-- The call `LightRAGService.insert_text` issues. -/
def LightRAGService.insert_text_call (s : LightRAGService) : OutboundCall :=
  ⟨s.base_url ++ "/documents/text", s.timeout⟩

/-- The call `LightRAGService.scan_documents` issues. -/
def LightRAGService.scan_documents_call (s : LightRAGService) : OutboundCall :=
  ⟨s.base_url ++ "/documents/scan", s.timeout⟩

/-- The call `LightRAGService.get_pipeline_status` issues. -/
def LightRAGService.get_pipeline_status_call (s : LightRAGService) : OutboundCall :=
  ⟨s.base_url ++ "/documents/pipeline_status", 30⟩

/-- The call `LightRAGService.health_check` issues. -/
def LightRAGService.health_check_call (s : LightRAGService) : OutboundCall :=
  ⟨s.base_url ++ "/health", 10⟩

/-- The module-level singleton, built from the default settings in
`config.py`. -/
def lightrag_service : LightRAGService :=
  LightRAGService.make "http://localhost:8020" none

/-! ### Helper lemmas -/

/-- A successful conversation lookup returns a row with the requested id. -/
theorem get_conversation_id_eq {db : DB} {cid : Nat} {conv : Conversation}
    (h : get_conversation db cid = some conv) : conv.id = cid := by
  have := List.find?_some h
  simpa using this

/-- Updating the title rewrites the row that a lookup for that id finds. -/
theorem find?_map_update_title (l : List Conversation) (cid : Nat) (t : String)
    (conv : Conversation) (h : l.find? (fun c => c.id == cid) = some conv) :
    (l.map (fun c => if c.id == cid then { c with title := some t } else c)).find?
        (fun c => c.id == cid) = some { conv with title := some t } := by
  induction l with
  | nil => simp at h
  | cons a l ih =>
    by_cases hb : (a.id == cid) = true
    · have hfa : (if (a.id == cid) = true then { a with title := some t } else a)
          = { a with title := some t } := if_pos hb
      rw [List.find?_cons_of_pos (p := fun c : Conversation => c.id == cid) _ hb] at h
      injection h with h2
      subst h2
      simp only [List.map_cons, hfa]
      exact List.find?_cons_of_pos (p := fun c : Conversation => c.id == cid) _ (by simpa using hb)
    · have hfa : (if (a.id == cid) = true then { a with title := some t } else a) = a :=
        if_neg hb
      rw [List.find?_cons_of_neg (p := fun c : Conversation => c.id == cid) _ hb] at h
      simp only [List.map_cons, hfa]
      rw [List.find?_cons_of_neg (p := fun c : Conversation => c.id == cid) _ hb]
      exact ih h

/-- Sorting `old ++ [m]` by descending timestamp puts `m` first when its
timestamp strictly dominates every element of `old`, and the tail is a
permutation of `old`. -/
theorem insertionSort_desc_append_max (old : List Message) (m : Message)
    (hmax : ∀ x ∈ old, x.timestamp < m.timestamp) :
    ∃ t, (old ++ [m]).insertionSort tsDesc = m :: t ∧ t.Perm old := by
  have hperm : (old ++ [m]).insertionSort tsDesc |>.Perm (old ++ [m]) :=
    List.perm_insertionSort tsDesc (old ++ [m])
  have hsorted : ((old ++ [m]).insertionSort tsDesc).Pairwise tsDesc :=
    List.sorted_insertionSort tsDesc (old ++ [m])
  have hmem : m ∈ (old ++ [m]).insertionSort tsDesc :=
    hperm.mem_iff.mpr (by simp)
  obtain ⟨a, t, hS⟩ : ∃ a t, (old ++ [m]).insertionSort tsDesc = a :: t := by
    cases hE : (old ++ [m]).insertionSort tsDesc with
    | nil => rw [hE] at hmem; simp at hmem
    | cons a t => exact ⟨a, t, rfl⟩
  have ham : a = m := by
    by_contra hne
    have haL : a ∈ old ++ [m] := hperm.mem_iff.mp (by rw [hS]; simp)
    have haOld : a ∈ old := by
      rcases List.mem_append.mp haL with h | h
      · exact h
      · simp at h; exact absurd h hne
    have hlt : a.timestamp < m.timestamp := hmax a haOld
    have hmt : m ∈ t := by
      rw [hS] at hmem
      rcases List.mem_cons.mp hmem with h | h
      · exact absurd h.symm hne
      · exact h
    have : tsDesc a m := (List.rel_of_sorted_cons (hS ▸ hsorted)) m hmt
    exact absurd (Nat.lt_of_le_of_lt this hlt) (Nat.lt_irrefl _)
  subst ham
  refine ⟨t, hS, ?_⟩
  have h1 : (a :: t).Perm (old ++ [a]) := hS ▸ hperm
  have h2 : (a :: t).Perm (a :: old) := h1.trans (List.perm_append_singleton a old)
  exact h2.cons_inv

/-- Sorting by ascending timestamp puts the strict-minimum element
first. -/
theorem insertionSort_asc_head_min (l : List Message) (m : Message)
    (hm : m ∈ l) (hmin : ∀ x ∈ l, x ≠ m → m.timestamp < x.timestamp) :
    (l.insertionSort tsAsc).head? = some m := by
  have hperm : l.insertionSort tsAsc |>.Perm l := List.perm_insertionSort tsAsc l
  have hsorted : (l.insertionSort tsAsc).Pairwise tsAsc := List.sorted_insertionSort tsAsc l
  have hmem : m ∈ l.insertionSort tsAsc := hperm.mem_iff.mpr hm
  obtain ⟨a, t, hS⟩ : ∃ a t, l.insertionSort tsAsc = a :: t := by
    cases hE : l.insertionSort tsAsc with
    | nil => rw [hE] at hmem; simp at hmem
    | cons a t => exact ⟨a, t, rfl⟩
  have ham : a = m := by
    by_contra hne
    have haL : a ∈ l := hperm.mem_iff.mp (by rw [hS]; simp)
    have hlt : m.timestamp < a.timestamp := hmin a haL (fun h => hne h)
    have hmt : m ∈ t := by
      rw [hS] at hmem
      rcases List.mem_cons.mp hmem with h | h
      · exact absurd h.symm hne
      · exact h
    have : tsAsc a m := (List.rel_of_sorted_cons (hS ▸ hsorted)) m hmt
    exact absurd (Nat.lt_of_le_of_lt this hlt) (Nat.lt_irrefl _)
  rw [hS, ham]
  rfl

/-- Strings are not members of their own complement filter. -/
theorem notMem_filter_ne (l : List String) (u : String) :
    u ∉ l.filter (fun f => f != u) := by
  intro h
  have := (List.mem_filter.mp h).2
  simp at this

/-! ### Claim theorems -/

/-- C4: a chat request whose message text is empty or whitespace-only
after trimming is rejected at the validation boundary with an
invalid-input error, before any mutation: the store is returned
unchanged (no conversation created, no message persisted) and the RAG
service is never called. -/
theorem chat_rejects_blank_message_before_mutation
    (db : DB) (conversation_id : Option Nat) (message : String)
    (nc uid uts aid ats : Nat) (rag : Except Unit String) (tf : Bool)
    (h : pyStrip message = "") :
    chat_endpoint db conversation_id message nc uid uts aid ats rag tf =
      ⟨db, ChatOutcome.invalidInput, none⟩ := by
  unfold chat_endpoint parseChatRequest
  simp [h]

/-- Witness for C4 at the concrete whitespace-only message. -/
theorem chat_rejects_blank_message_before_mutation_witness :
    pyStrip "   " = "" ∧
    chat_endpoint ⟨[], []⟩ none "   " 1 2 3 4 5 (Except.ok "x") false =
      ⟨⟨[], []⟩, ChatOutcome.invalidInput, none⟩ :=
  ⟨by decide,
    chat_rejects_blank_message_before_mutation ⟨[], []⟩ none "   " 1 2 3 4 5
      (Except.ok "x") false (by decide)⟩

/-- C3: when the RAG query fails, the chat turn reports service
unavailability, the user message persisted in step 2 is kept (no
rollback), no AI message is stored, and the conversation message count
grows by exactly one. -/
theorem chat_rag_failure_persists_only_user_message
    (db : DB) (req : ChatRequest) (nc uid uts aid ats : Nat) (tf : Bool) (rcid : Nat)
    (hres : (req.conversation_id = none ∧ rcid = nc) ∨
      (req.conversation_id = some rcid ∧ ∃ conv, get_conversation db rcid = some conv)) :
    (chat db req nc uid uts aid ats (Except.error ()) tf).outcome =
        ChatOutcome.serviceUnavailable ∧
    (chat db req nc uid uts aid ats (Except.error ()) tf).db.msgs =
        db.msgs ++ [⟨uid, rcid, MessageSender.user, req.message, none, uts⟩] ∧
    get_conversation_message_count
        (chat db req nc uid uts aid ats (Except.error ()) tf).db rcid =
      get_conversation_message_count db rcid + 1 := by
  rcases hres with ⟨h1, h2⟩ | ⟨h1, conv, h2⟩
  · subst h2
    simp only [chat, h1]
    refine ⟨by trivial, by simp [create_message, create_conversation], ?_⟩
    simp [get_conversation_message_count, convMsgs, create_message, create_conversation,
      List.filter_append]
  · have hid : conv.id = rcid := get_conversation_id_eq h2
    simp only [chat, h1, h2]
    refine ⟨by trivial, by simp [create_message, hid], ?_⟩
    simp [get_conversation_message_count, convMsgs, create_message, hid,
      List.filter_append]

/-- Witness for C3 on a store holding one conversation with one prior
message. -/
theorem chat_rag_failure_persists_only_user_message_witness :
    (chat ⟨[⟨1, some "T", none⟩], [⟨50, 1, MessageSender.user, "old", none, 1⟩]⟩
        ⟨some 1, "q"⟩ 9 100 10 101 11 (Except.error ()) false).outcome =
      ChatOutcome.serviceUnavailable ∧
    (chat ⟨[⟨1, some "T", none⟩], [⟨50, 1, MessageSender.user, "old", none, 1⟩]⟩
        ⟨some 1, "q"⟩ 9 100 10 101 11 (Except.error ()) false).db.msgs =
      [⟨50, 1, MessageSender.user, "old", none, 1⟩] ++
        [⟨100, 1, MessageSender.user, "q", none, 10⟩] ∧
    get_conversation_message_count
        (chat ⟨[⟨1, some "T", none⟩], [⟨50, 1, MessageSender.user, "old", none, 1⟩]⟩
          ⟨some 1, "q"⟩ 9 100 10 101 11 (Except.error ()) false).db 1 =
      get_conversation_message_count
        ⟨[⟨1, some "T", none⟩], [⟨50, 1, MessageSender.user, "old", none, 1⟩]⟩ 1 + 1 :=
  chat_rag_failure_persists_only_user_message
    ⟨[⟨1, some "T", none⟩], [⟨50, 1, MessageSender.user, "old", none, 1⟩]⟩
    ⟨some 1, "q"⟩ 9 100 10 101 11 false 1 (Or.inr ⟨rfl, ⟨1, some "T", none⟩, by decide⟩)

/-- C6: the claim says a failure inside the auto-title step must not
fail the turn; in the code the step is not guarded, so an exception
raised there is caught only by the generic handler and the turn ends in
an internal error instead of the success response.  This evaluates the
orchestration at such a failing turn. -/
theorem chat_title_step_failure_fails_turn :
    (chat ⟨[⟨1, none, none⟩], []⟩ ⟨some 1, "Hello"⟩ 2 100 10 101 11
        (Except.ok "Hi") true).outcome = ChatOutcome.internalError := by decide

/-- C9 counterexample: `scan_documents` opens its client with the
constructor-wide 300-second default timeout, not the 30 seconds the
claim assigns to status operations. -/
theorem scan_documents_timeout_not_thirty :
    (LightRAGService.scan_documents_call
        (LightRAGService.make "http://localhost:8020" none)).timeout = 300 ∧
    ¬ (LightRAGService.scan_documents_call
        (LightRAGService.make "http://localhost:8020" none)).timeout = 30 := by
  exact ⟨rfl, by decide⟩

/-- After the save step the derived filename is present in the local
store. -/
theorem contains_after_save (fs : List String) (u : String) :
    (if fs.contains u then fs else fs ++ [u]).contains u = true := by
  by_cases hc : fs.contains u
  · rw [if_pos hc]
    exact hc
  · rw [if_neg hc]
    simp

/-- C7: when the local save of an uploaded document succeeds but the
forward to the RAG service fails, the compensating action removes the
locally written file — it is absent from the local store afterwards —
and the endpoint reports service unavailability. -/
theorem upload_remote_failure_deletes_local_file
    (fs : List String) (file : UploadFile) (uid : String) (sz : Nat)
    (hv : validate_file file = Except.ok ()) :
    ∃ name,
      (upload_document fs file uid sz true (Except.error ())).localWrote = some name ∧
      name ∉ (upload_document fs file uid sz true (Except.error ())).fs ∧
      (upload_document fs file uid sz true (Except.error ())).outcome =
        UploadOutcome.serviceUnavailable := by
  simp only [upload_document, hv]
  refine ⟨_, rfl, ?_, rfl⟩
  rw [if_pos (contains_after_save fs _)]
  exact notMem_filter_ne _ _

/-- Witness for C7 on a concrete PDF upload. -/
theorem upload_remote_failure_deletes_local_file_witness :
    validate_file ⟨some "r.pdf", none, some 7⟩ = Except.ok () ∧
    ∃ name,
      (upload_document ["old.pdf"] ⟨some "r.pdf", none, some 7⟩ "abc12345" 7 true
          (Except.error ())).localWrote = some name ∧
      name ∉ (upload_document ["old.pdf"] ⟨some "r.pdf", none, some 7⟩ "abc12345" 7 true
          (Except.error ())).fs ∧
      (upload_document ["old.pdf"] ⟨some "r.pdf", none, some 7⟩ "abc12345" 7 true
          (Except.error ())).outcome = UploadOutcome.serviceUnavailable :=
  ⟨by rfl,
    upload_remote_failure_deletes_local_file ["old.pdf"] ⟨some "r.pdf", none, some 7⟩
      "abc12345" 7 (by rfl)⟩

/-- C8: an upload whose filename carries an extension outside the
allow-list is rejected as invalid input before any effect: the local
store is unchanged, nothing is written, and the RAG service is never
called. -/
theorem upload_disallowed_extension_rejected
    (fs : List String) (file : UploadFile) (uid : String) (sz : Nat) (saveOk : Bool)
    (rag : Except Unit Unit) (fn : String)
    (hfn : file.filename = some fn) (hsuf : pathSuffix fn ≠ "")
    (hext : pyLower (pathSuffix fn) ∉ ALLOWED_EXTENSIONS) :
    upload_document fs file uid sz saveOk rag =
      ⟨fs, UploadOutcome.invalidInput, false, none⟩ := by
  have hfn' : fn ≠ "" := by
    intro h
    rw [h] at hsuf
    exact hsuf rfl
  have hB : (match file.filename with
      | some fn' => fn' != "" && !(ALLOWED_EXTENSIONS.contains (pyLower (pathSuffix fn')))
      | none => false) = true := by
    rw [hfn]
    simp [hfn', hext]
  have hval : ∃ e, validate_file file = Except.error e := by
    unfold validate_file
    by_cases hA : (match file.size with
        | some s => decide (0 < s) && decide (max_file_size < s)
        | none => false) = true
    · exact ⟨FileError.fileTooLarge, by rw [if_pos hA]⟩
    · exact ⟨FileError.extensionNotAllowed, by rw [if_neg hA, if_pos hB]⟩
  obtain ⟨e, he⟩ := hval
  simp only [upload_document, he]

/-- Witness for C8 at a concrete `.exe` upload. -/
theorem upload_disallowed_extension_rejected_witness :
    pathSuffix "x.exe" ≠ "" ∧
    pyLower (pathSuffix "x.exe") ∉ ALLOWED_EXTENSIONS ∧
    upload_document ["old.pdf"] ⟨some "x.exe", none, some 7⟩ "abc12345" 7 true
        (Except.ok ()) =
      ⟨["old.pdf"], UploadOutcome.invalidInput, false, none⟩ :=
  ⟨by decide, by decide,
    upload_disallowed_extension_rejected ["old.pdf"] ⟨some "x.exe", none, some 7⟩
      "abc12345" 7 true (Except.ok ()) "x.exe" rfl (by decide) (by decide)⟩

/-- C10: when both the filename and the declared media type are absent,
`validate_file` can only fail the size check — never the extension or
MIME checks — and the upload proceeds, storing and forwarding the file
under the fallback name `unknown_file` plus the random suffix. -/
theorem upload_absent_metadata_skips_validation
    (fs : List String) (uid : String) (sz : Nat) (size? : Option Nat) :
    (∀ e, validate_file ⟨none, none, size?⟩ = Except.error e →
      e = FileError.fileTooLarge) ∧
    (validate_file ⟨none, none, size?⟩ = Except.ok () →
      (upload_document fs ⟨none, none, size?⟩ uid sz true (Except.ok ())).outcome =
          UploadOutcome.success ("unknown_file_" ++ uid) sz ∧
      ("unknown_file_" ++ uid) ∈
          (upload_document fs ⟨none, none, size?⟩ uid sz true (Except.ok ())).fs ∧
      (upload_document fs ⟨none, none, size?⟩ uid sz true
          (Except.ok ())).remoteCalled = true ∧
      (upload_document fs ⟨none, none, size?⟩ uid sz true (Except.ok ())).localWrote =
          some ("unknown_file_" ++ uid)) := by
  have hname : pathStem "unknown_file" ++ "_" ++ uid ++ pathSuffix "unknown_file" =
      "unknown_file_" ++ uid := by
    have h1 : pathStem "unknown_file" = "unknown_file" := by decide
    have h2 : pathSuffix "unknown_file" = "" := by decide
    have h3 : ("unknown_file" ++ "_" : String) = "unknown_file_" := by decide
    rw [h1, h2, String.append_empty, h3]
  constructor
  · intro e he
    unfold validate_file at he
    by_cases hA : (match (⟨none, none, size?⟩ : UploadFile).size with
        | some s => decide (0 < s) && decide (max_file_size < s)
        | none => false) = true
    · rw [if_pos hA] at he
      injection he with he2
      exact he2.symm
    · rw [if_neg hA] at he
      simp at he
  · intro hok
    simp only [upload_document, hok]
    rw [hname]
    refine ⟨rfl, ?_, rfl, rfl⟩
    by_cases hc : fs.contains ("unknown_file_" ++ uid)
    · simp only [if_pos hc]
      simpa using hc
    · simp only [if_neg hc]
      simp

/-- Witness for C10 at a concrete metadata-free upload. -/
theorem upload_absent_metadata_skips_validation_witness :
    (upload_document [] ⟨none, none, none⟩ "abc12345" 7 true (Except.ok ())).outcome =
        UploadOutcome.success ("unknown_file_" ++ "abc12345") 7 ∧
    ("unknown_file_" ++ "abc12345") ∈
        (upload_document [] ⟨none, none, none⟩ "abc12345" 7 true (Except.ok ())).fs ∧
    (upload_document [] ⟨none, none, none⟩ "abc12345" 7 true
        (Except.ok ())).remoteCalled = true ∧
    (upload_document [] ⟨none, none, none⟩ "abc12345" 7 true (Except.ok ())).localWrote =
        some ("unknown_file_" ++ "abc12345") :=
  (upload_absent_metadata_skips_validation [] "abc12345" 7 none).2 (by rfl)

/-- C1: for a conversation with `k` messages and window bound `N`, the
history assembly returns exactly `min k N` role-tagged entries; they are
the images of a selection of messages of that conversation only,
strictly ascending by timestamp (oldest to newest), every unselected
message of the conversation is older than every selected one (so the
selection is the `N` most recent), and the role tag is `user` for
`sender=user` and `assistant` for `sender=ai`.  Distinct timestamps
within the conversation are the data-model invariant of the spec. -/
theorem history_window_bounded_chronological
    (db : DB) (cid N : Nat)
    (hdist : (convMsgs db.msgs cid).Pairwise (fun a b => a.timestamp ≠ b.timestamp)) :
    (get_conversation_history_for_lightrag db cid N).length =
        min (get_conversation_message_count db cid) N ∧
    ∃ sel : List Message,
      get_conversation_history_for_lightrag db cid N = sel.map toHistEntry ∧
      (∀ m ∈ sel, m ∈ db.msgs ∧ m.conversation_id = cid) ∧
      sel.Pairwise (fun a b => a.timestamp < b.timestamp) ∧
      (∀ m ∈ convMsgs db.msgs cid, m ∉ sel → ∀ x ∈ sel, m.timestamp < x.timestamp) ∧
      (∀ m ∈ sel,
        (m.sender = MessageSender.user → (toHistEntry m).role = "user") ∧
        (m.sender = MessageSender.ai → (toHistEntry m).role = "assistant")) := by
  have hperm : (convMsgs db.msgs cid).insertionSort tsDesc |>.Perm (convMsgs db.msgs cid) :=
    List.perm_insertionSort tsDesc (convMsgs db.msgs cid)
  have hsorted : ((convMsgs db.msgs cid).insertionSort tsDesc).Pairwise tsDesc :=
    List.sorted_insertionSort tsDesc (convMsgs db.msgs cid)
  have hsub : List.Sublist (((convMsgs db.msgs cid).insertionSort tsDesc).take N)
      ((convMsgs db.msgs cid).insertionSort tsDesc) :=
    List.take_sublist N _
  have hsymm : Symmetric (fun a b : Message => a.timestamp ≠ b.timestamp) :=
    fun _ _ h => h.symm
  constructor
  · simp only [get_conversation_history_for_lightrag, lightragWindow, List.length_map,
      List.length_reverse, List.length_take, List.length_insertionSort,
      get_conversation_message_count]
    exact Nat.min_comm N _
  refine ⟨(((convMsgs db.msgs cid).insertionSort tsDesc).take N).reverse, rfl, ?_, ?_, ?_, ?_⟩
  · intro m hm
    have hmL : m ∈ convMsgs db.msgs cid :=
      hperm.mem_iff.mp (hsub.mem (List.mem_reverse.mp hm))
    have := List.mem_filter.mp hmL
    exact ⟨this.1, by simpa using this.2⟩
  · have hdistS : ((convMsgs db.msgs cid).insertionSort tsDesc).Pairwise
        (fun a b => a.timestamp ≠ b.timestamp) :=
      (hperm.pairwise_iff (fun h => h.symm)).mpr hdist
    have hdistW := List.Pairwise.sublist hsub hdistS
    have hsortW := List.Pairwise.sublist hsub hsorted
    have hlt : (((convMsgs db.msgs cid).insertionSort tsDesc).take N).Pairwise
        (fun a b => b.timestamp < a.timestamp) :=
      (hsortW.and hdistW).imp (fun h => Nat.lt_of_le_of_ne h.1 (Ne.symm h.2))
    exact List.pairwise_reverse.mpr hlt
  · intro m hmL hmns x hx
    have hxW : x ∈ ((convMsgs db.msgs cid).insertionSort tsDesc).take N :=
      List.mem_reverse.mp hx
    have hmS : m ∈ (convMsgs db.msgs cid).insertionSort tsDesc := hperm.mem_iff.mpr hmL
    have hmW : m ∉ ((convMsgs db.msgs cid).insertionSort tsDesc).take N :=
      fun h => hmns (List.mem_reverse.mpr h)
    have hmD : m ∈ ((convMsgs db.msgs cid).insertionSort tsDesc).drop N := by
      rcases List.mem_append.mp
          ((List.take_append_drop N ((convMsgs db.msgs cid).insertionSort tsDesc)) ▸ hmS)
        with h | h
      · exact absurd h hmW
      · exact h
    have hrel : tsDesc x m := List.Sorted.rel_of_mem_take_of_mem_drop hsorted hxW hmD
    have hxL : x ∈ convMsgs db.msgs cid := hperm.mem_iff.mp (hsub.mem hxW)
    have hne : m ≠ x := fun h => hmns (h ▸ hx)
    have hneTs : m.timestamp ≠ x.timestamp := hdist.forall hsymm hmL hxL hne
    exact Nat.lt_of_le_of_ne hrel hneTs
  · intro m _
    refine ⟨fun h => ?_, fun h => ?_⟩
    · simp [toHistEntry, h]
    · simp [toHistEntry, h]

/-- Witness for C1 on a concrete store with two conversations, bound 1. -/
theorem history_window_bounded_chronological_witness :
    (convMsgs [⟨10, 1, MessageSender.user, "a", none, 1⟩,
        ⟨11, 1, MessageSender.ai, "b", none, 2⟩,
        ⟨12, 2, MessageSender.user, "c", none, 3⟩] 1).Pairwise
      (fun a b => a.timestamp ≠ b.timestamp) ∧
    ((get_conversation_history_for_lightrag
        ⟨[⟨1, none, none⟩], [⟨10, 1, MessageSender.user, "a", none, 1⟩,
          ⟨11, 1, MessageSender.ai, "b", none, 2⟩,
          ⟨12, 2, MessageSender.user, "c", none, 3⟩]⟩ 1 1).length =
      min (get_conversation_message_count
        ⟨[⟨1, none, none⟩], [⟨10, 1, MessageSender.user, "a", none, 1⟩,
          ⟨11, 1, MessageSender.ai, "b", none, 2⟩,
          ⟨12, 2, MessageSender.user, "c", none, 3⟩]⟩ 1) 1 ∧
    ∃ sel : List Message,
      get_conversation_history_for_lightrag
          ⟨[⟨1, none, none⟩], [⟨10, 1, MessageSender.user, "a", none, 1⟩,
            ⟨11, 1, MessageSender.ai, "b", none, 2⟩,
            ⟨12, 2, MessageSender.user, "c", none, 3⟩]⟩ 1 1 = sel.map toHistEntry ∧
      (∀ m ∈ sel, m ∈ [⟨10, 1, MessageSender.user, "a", none, 1⟩,
          ⟨11, 1, MessageSender.ai, "b", none, 2⟩,
          ⟨12, 2, MessageSender.user, "c", none, 3⟩] ∧ m.conversation_id = 1) ∧
      sel.Pairwise (fun a b => a.timestamp < b.timestamp) ∧
      (∀ m ∈ convMsgs [⟨10, 1, MessageSender.user, "a", none, 1⟩,
          ⟨11, 1, MessageSender.ai, "b", none, 2⟩,
          ⟨12, 2, MessageSender.user, "c", none, 3⟩] 1,
        m ∉ sel → ∀ x ∈ sel, m.timestamp < x.timestamp) ∧
      (∀ m ∈ sel,
        (m.sender = MessageSender.user → (toHistEntry m).role = "user") ∧
        (m.sender = MessageSender.ai → (toHistEntry m).role = "assistant"))) :=
  ⟨by decide,
    history_window_bounded_chronological
      ⟨[⟨1, none, none⟩], [⟨10, 1, MessageSender.user, "a", none, 1⟩,
        ⟨11, 1, MessageSender.ai, "b", none, 2⟩,
        ⟨12, 2, MessageSender.user, "c", none, 3⟩]⟩ 1 1 (by decide)⟩

/-- After persisting a strictly newest message `u`, the forwarded
history (the fetched window minus its last entry) is built only from
the previously stored messages, and excludes `u`. -/
theorem forwarded_history_drops_new_message
    (db2 : DB) (old : List Message) (u : Message) (rcid : Nat)
    (hmsgs : db2.msgs = old ++ [u])
    (hu : u.conversation_id = rcid)
    (hmax : ∀ x ∈ convMsgs old rcid, x.timestamp < u.timestamp) :
    ∃ T : List Message,
      (if (get_conversation_history_for_lightrag db2 rcid 10).isEmpty then none
        else some (get_conversation_history_for_lightrag db2 rcid 10).dropLast) =
        some (T.map toHistEntry) ∧
      (∀ m ∈ T, m ∈ old ∧ m.timestamp < u.timestamp) ∧ u ∉ T := by
  have hfilter : convMsgs db2.msgs rcid = convMsgs old rcid ++ [u] := by
    rw [hmsgs]
    simp [convMsgs, List.filter_append, hu]
  obtain ⟨t, hSort, hPerm⟩ := insertionSort_desc_append_max (convMsgs old rcid) u hmax
  have hW : lightragWindow db2.msgs rcid 10 = u :: t.take 9 := by
    rw [lightragWindow, hfilter, hSort]
    rfl
  have hH : get_conversation_history_for_lightrag db2 rcid 10 =
      ((t.take 9).reverse.map toHistEntry) ++ [toHistEntry u] := by
    rw [get_conversation_history_for_lightrag, hW]
    simp
  refine ⟨(t.take 9).reverse, ?_, ?_, ?_⟩
  · rw [hH, if_neg (by simp), List.dropLast_concat]
  · intro m hm
    have hmOld : m ∈ convMsgs old rcid :=
      hPerm.mem_iff.mp (List.Sublist.mem (List.mem_reverse.mp hm) (List.take_sublist 9 t))
    exact ⟨(List.mem_filter.mp hmOld).1, hmax m hmOld⟩
  · intro hmem
    have hmOld : u ∈ convMsgs old rcid :=
      hPerm.mem_iff.mp (List.Sublist.mem (List.mem_reverse.mp hmem) (List.take_sublist 9 t))
    exact absurd (hmax u hmOld) (Nat.lt_irrefl _)

/-- C2: in a chat turn whose persisted user message is strictly newer
than every stored message of the conversation, the history payload
handed to the RAG query is built only from previously stored messages:
the just-persisted user message is not among them (its window entry is
dropped as the last element). -/
theorem chat_history_excludes_current_user_message
    (db : DB) (req : ChatRequest) (nc uid uts aid ats : Nat)
    (rag : Except Unit String) (tf : Bool) (rcid : Nat)
    (hres : (req.conversation_id = none ∧ rcid = nc) ∨
      (req.conversation_id = some rcid ∧ ∃ conv, get_conversation db rcid = some conv))
    (hmax : ∀ m ∈ db.msgs, m.conversation_id = rcid → m.timestamp < uts) :
    ∃ T : List Message,
      (chat db req nc uid uts aid ats rag tf).ragSent =
        some (some (T.map toHistEntry)) ∧
      (∀ m ∈ T, m ∈ db.msgs ∧ m.timestamp < uts) ∧
      (⟨uid, rcid, MessageSender.user, req.message, none, uts⟩ : Message) ∉ T := by
  rcases hres with ⟨h1, h2⟩ | ⟨h1, conv, h2⟩
  · subst h2
    have hmax' : ∀ x ∈ convMsgs db.msgs rcid, x.timestamp <
        (⟨uid, rcid, MessageSender.user, req.message, none, uts⟩ : Message).timestamp := by
      intro x hx
      have := List.mem_filter.mp hx
      exact hmax x this.1 (by simpa using this.2)
    obtain ⟨T, hT1, hT2, hT3⟩ := forwarded_history_drops_new_message
      (create_message (create_conversation db rcid none (some "default_user"))
        ⟨uid, rcid, MessageSender.user, req.message, none, uts⟩)
      db.msgs ⟨uid, rcid, MessageSender.user, req.message, none, uts⟩ rcid
      (by simp [create_message, create_conversation]) rfl hmax'
    refine ⟨T, ?_, hT2, hT3⟩
    simp only [chat, h1]
    exact congrArg some hT1
  · have hid : conv.id = rcid := get_conversation_id_eq h2
    subst hid
    have hmax' : ∀ x ∈ convMsgs db.msgs conv.id, x.timestamp <
        (⟨uid, conv.id, MessageSender.user, req.message, none, uts⟩ : Message).timestamp := by
      intro x hx
      have := List.mem_filter.mp hx
      exact hmax x this.1 (by simpa using this.2)
    obtain ⟨T, hT1, hT2, hT3⟩ := forwarded_history_drops_new_message
      (create_message db ⟨uid, conv.id, MessageSender.user, req.message, none, uts⟩)
      db.msgs ⟨uid, conv.id, MessageSender.user, req.message, none, uts⟩ conv.id
      (by simp [create_message]) rfl hmax'
    refine ⟨T, ?_, hT2, hT3⟩
    simp only [chat, h1, h2]
    exact congrArg some hT1

/-- Witness for C2 on a conversation with two prior messages. -/
theorem chat_history_excludes_current_user_message_witness :
    ∃ T : List Message,
      (chat ⟨[⟨5, some "T", none⟩], [⟨50, 5, MessageSender.user, "old", none, 1⟩,
          ⟨51, 5, MessageSender.ai, "r", none, 2⟩]⟩
        ⟨some 5, "next"⟩ 9 100 10 101 11 (Except.ok "resp") false).ragSent =
        some (some (T.map toHistEntry)) ∧
      (∀ m ∈ T, m ∈ [⟨50, 5, MessageSender.user, "old", none, 1⟩,
          ⟨51, 5, MessageSender.ai, "r", none, 2⟩] ∧ m.timestamp < 10) ∧
      (⟨100, 5, MessageSender.user, "next", none, 10⟩ : Message) ∉ T :=
  chat_history_excludes_current_user_message
    ⟨[⟨5, some "T", none⟩], [⟨50, 5, MessageSender.user, "old", none, 1⟩,
      ⟨51, 5, MessageSender.ai, "r", none, 2⟩]⟩
    ⟨some 5, "next"⟩ 9 100 10 101 11 (Except.ok "resp") false 5
    (Or.inr ⟨rfl, ⟨5, some "T", none⟩, by decide⟩) (by decide)

/-- C5 counterexample: a conversation whose title was explicitly set to
the empty string — a set title — does not keep it: the auto-title guard
tests Python falsiness, so a successful chat turn overwrites it. -/
theorem chat_overwrites_empty_string_title :
    (chat ⟨[⟨1, some "", none⟩], []⟩ ⟨some 1, "Hello"⟩ 2 100 10 101 11
        (Except.ok "Hi") false).db.convs = [⟨1, some "Hello", none⟩] ∧
    (chat ⟨[⟨1, some "", none⟩], []⟩ ⟨some 1, "Hello"⟩ 2 100 10 101 11
        (Except.ok "Hi") false).outcome = ChatOutcome.success 1 "Hi" none 100 101 := by
  exact ⟨by decide, by decide⟩

/-- C5 amended: after a successful chat turn on a conversation whose
title is absent or empty, the title becomes the first 50 characters
(stripped) of the chronologically first `sender=user` message, with an
ellipsis appended exactly when that content exceeds 50 characters
(provided the derived title is non-empty, since a falsy derived title is
not persisted); a turn on a conversation whose title is a non-empty
string leaves the stored conversations unchanged. -/
theorem chat_auto_title_amended
    (db : DB) (cid : Nat) (conv : Conversation) (msg aiText : String)
    (nc uid uts aid ats : Nat)
    (hconv : get_conversation db cid = some conv) :
    (∀ m : Message,
      titleFalsy conv.title = true →
      m ∈ (db.msgs ++ ([⟨uid, cid, MessageSender.user, msg, none, uts⟩,
            ⟨aid, cid, MessageSender.ai, aiText, none, ats⟩] : List Message)).filter
          (fun x => x.conversation_id == cid && x.sender == MessageSender.user) →
      (∀ x ∈ (db.msgs ++ ([⟨uid, cid, MessageSender.user, msg, none, uts⟩,
            ⟨aid, cid, MessageSender.ai, aiText, none, ats⟩] : List Message)).filter
          (fun y => y.conversation_id == cid && y.sender == MessageSender.user),
        x ≠ m → m.timestamp < x.timestamp) →
      pyStrip (pySlice m.content 50) ++
          (if pyLen m.content > 50 then "..." else "") ≠ "" →
      ∃ c, get_conversation
            (chat db ⟨some cid, msg⟩ nc uid uts aid ats (Except.ok aiText) false).db cid =
          some c ∧
        c.title = some (pyStrip (pySlice m.content 50) ++
          (if pyLen m.content > 50 then "..." else "")) ∧
        (chat db ⟨some cid, msg⟩ nc uid uts aid ats (Except.ok aiText) false).outcome =
          ChatOutcome.success cid aiText none uid aid) ∧
    (∀ t : String, conv.title = some t → t ≠ "" →
      (chat db ⟨some cid, msg⟩ nc uid uts aid ats (Except.ok aiText) false).db.convs =
        db.convs ∧
      (chat db ⟨some cid, msg⟩ nc uid uts aid ats (Except.ok aiText) false).outcome =
        ChatOutcome.success cid aiText none uid aid) := by
  have hid : conv.id = cid := get_conversation_id_eq hconv
  subst hid
  constructor
  · intro m htitle hm hmin hne
    have hmsgs3 : (create_message (create_message db
        ⟨uid, conv.id, MessageSender.user, msg, none, uts⟩)
        ⟨aid, conv.id, MessageSender.ai, aiText, none, ats⟩).msgs =
        db.msgs ++ [⟨uid, conv.id, MessageSender.user, msg, none, uts⟩,
          ⟨aid, conv.id, MessageSender.ai, aiText, none, ats⟩] := by
      simp [create_message]
    have hhead : (((create_message (create_message db
        ⟨uid, conv.id, MessageSender.user, msg, none, uts⟩)
        ⟨aid, conv.id, MessageSender.ai, aiText, none, ats⟩).msgs.filter
          (fun x => x.conversation_id == conv.id &&
            x.sender == MessageSender.user)).insertionSort tsAsc).head? = some m := by
      apply insertionSort_asc_head_min
      · rw [hmsgs3]
        exact hm
      · intro x hx hxm
        rw [hmsgs3] at hx
        exact hmin x hx hxm
    have hgen : generate_conversation_title (create_message (create_message db
        ⟨uid, conv.id, MessageSender.user, msg, none, uts⟩)
        ⟨aid, conv.id, MessageSender.ai, aiText, none, ats⟩) conv.id =
        some (pyStrip (pySlice m.content 50) ++
          (if pyLen m.content > 50 then "..." else "")) := by
      unfold generate_conversation_title
      rw [hhead]
    have hne' : ((pyStrip (pySlice m.content 50) ++
        (if pyLen m.content > 50 then "..." else "")) == "") = false := by
      simpa using hne
    simp only [chat, hconv, htitle, hgen, hne', eq_self_iff_true, if_true,
      Bool.false_eq_true, if_false]
    refine ⟨{ conv with title := some (pyStrip (pySlice m.content 50) ++
      (if pyLen m.content > 50 then "..." else "")) }, ?_, rfl, by trivial⟩
    exact find?_map_update_title db.convs conv.id _ conv hconv
  · intro t ht htne
    have hf : titleFalsy conv.title = false := by
      rw [ht]
      simpa [titleFalsy] using htne
    simp only [chat, hconv, hf, Bool.false_eq_true, if_false]
    exact ⟨by simp [create_message], by trivial⟩

/-- Witness for C5: a turn on an untitled conversation gains the derived
title, and a turn on a conversation titled with a non-empty string keeps
its row unchanged. -/
theorem chat_auto_title_amended_witness :
    (∃ c, get_conversation
          (chat ⟨[⟨1, none, none⟩], []⟩ ⟨some 1, "Hello"⟩ 2 100 10 101 11
            (Except.ok "Hi") false).db 1 = some c ∧
        c.title = some (pyStrip (pySlice "Hello" 50) ++
          (if pyLen "Hello" > 50 then "..." else "")) ∧
        (chat ⟨[⟨1, none, none⟩], []⟩ ⟨some 1, "Hello"⟩ 2 100 10 101 11
            (Except.ok "Hi") false).outcome = ChatOutcome.success 1 "Hi" none 100 101) ∧
    ((chat ⟨[⟨1, some "T", none⟩], []⟩ ⟨some 1, "again"⟩ 2 100 10 101 11
        (Except.ok "Hi") false).db.convs = [⟨1, some "T", none⟩] ∧
      (chat ⟨[⟨1, some "T", none⟩], []⟩ ⟨some 1, "again"⟩ 2 100 10 101 11
        (Except.ok "Hi") false).outcome = ChatOutcome.success 1 "Hi" none 100 101) :=
  ⟨(chat_auto_title_amended ⟨[⟨1, none, none⟩], []⟩ 1 ⟨1, none, none⟩ "Hello" "Hi"
      2 100 10 101 11 (by decide)).1
      ⟨100, 1, MessageSender.user, "Hello", none, 10⟩
      (by decide) (by decide) (by decide) (by decide),
    (chat_auto_title_amended ⟨[⟨1, some "T", none⟩], []⟩ 1 ⟨1, some "T", none⟩ "again" "Hi"
      2 100 10 101 11 (by decide)).2 "T" rfl (by decide)⟩

/-- C9 amended: query, document upload, text insertion and document scan
are issued with the 300-second default timeout; pipeline status with 30
seconds; the health check with 10 seconds. -/
theorem lightrag_operation_timeouts (url : String) (key : Option String) :
    (LightRAGService.query_call (LightRAGService.make url key)).timeout = 300 ∧
    (LightRAGService.upload_document_call (LightRAGService.make url key)).timeout = 300 ∧
    (LightRAGService.insert_text_call (LightRAGService.make url key)).timeout = 300 ∧
    (LightRAGService.scan_documents_call (LightRAGService.make url key)).timeout = 300 ∧
    (LightRAGService.get_pipeline_status_call (LightRAGService.make url key)).timeout = 30 ∧
    (LightRAGService.health_check_call (LightRAGService.make url key)).timeout = 10 :=
  ⟨rfl, rfl, rfl, rfl, rfl, rfl⟩

end RagBackend
